import Mathlib

/-!
Shallow embedding of the piskel2Houdini task-orchestration pipeline:
the task processors (src/houdini/task_processors.py), the structured
log store (src/houdini/log_system.py), and the raster codec
(src/houdini/json2jpg.py, src/houdini/png2json.py).

External library calls (json.loads, the file system, subprocesses) are
modelled as oracle values supplied through explicit environment
structures; everything the repository's own code computes is translated
directly.
-/

namespace P2H

/-! ## JSON-like values

The worker subprocesses and the log store exchange JSON. Only the
shapes the orchestration code inspects are needed: truthiness of a
value (Python `bool(...)`) and key lookup on an object.  Parsed
top-level payloads are contractually JSON objects (the workers print
dicts), so parse oracles return `Option JObj`. -/

inductive JVal where
  | null
  | bool (b : Bool)
  | num (n : Int)
  | str (s : String)
  | arr (nonempty : Bool)
  | obj (nonempty : Bool)
deriving Repr, BEq, DecidableEq

/-- A JSON object: an association list with the insertion order of a
Python dict.  Keys are unique in every object the system produces. -/
abbrev JObj := List (String × JVal)

/-- Python truthiness of a JSON value (`bool(x)` on the json.loads
result): None/False/0/""/[]/{} are falsy.  Nested arrays and objects
are tracked only by non-emptiness, the sole property the
orchestration code ever reads from them. -/
def truthy : JVal → Bool
  | .null => false
  | .bool b => b
  | .num n => n != 0
  | .str s => s != ""
  | .arr ne => ne
  | .obj ne => ne

/-- Python `d.get(k)` on a dict: the value, or None when absent. -/
def jget (o : JObj) (k : String) : Option JVal :=
  (o.find? (fun p => p.1 == k)).map (·.2)

/-- Truthiness of a dict itself (`bool(worker_json)`). -/
def objTruthy (o : JObj) : Bool := !o.isEmpty

/-- Python `bool(d.get("ok"))`. -/
def okTruthy (o : JObj) : Bool :=
  match jget o "ok" with
  | some v => truthy v
  | none => false

/-- Python `bool(wj and wj.get("ok"))` for an optional parsed payload
(`worker_json` may be None). -/
def wjOkB : Option JObj → Bool
  | some o => objTruthy o && okTruthy o
  | none => false

/-! ## Python string helpers used by the source -/

/-- Python `str(x or "")` for an optional string-valued field: the
value when present and non-empty, else the empty string. -/
def pyStrOr : Option String → String
  | some s => s
  | none => ""

/-- Python truthiness filter on an optional string: `some s` only when
the field is present and non-empty. -/
def pyTruthyOpt : Option String → Option String
  | some s => if s = "" then none else some s
  | none => none

/-- Python `s.strip()`: whitespace removed from both ends (modelled
over the ASCII whitespace class of `Char.isWhitespace`). -/
def pyStrip (s : String) : String :=
  String.mk (((s.toList.dropWhile Char.isWhitespace).reverse.dropWhile
    Char.isWhitespace).reverse)

/-- Python `s.lower()` (ASCII model; parameter keys are ASCII). -/
def pyLower (s : String) : String := String.mk (s.toList.map Char.toLower)

/-! ## Path helpers (models of os.path on the Windows deployment)

The repository targets Windows (it launches `hython.exe`), so
`os.path.basename` is modelled after ntpath: an optional drive prefix
`X:` is dropped, then everything up to the last `/` or `\` separator
is removed.  UNC device prefixes are not modelled.  `os.path.splitext`
follows CPython: the extension starts at the last dot, provided some
character before it (in the basename) is not itself a dot. -/

def isSepChar (c : Char) : Bool := c = '/' || c = '\\'

def basenameList (cs : List Char) : List Char :=
  let afterDrive := match cs with
    | a :: b :: rest => if b = ':' then rest else a :: b :: rest
    | l => l
  (afterDrive.reverse.takeWhile (fun c => !isSepChar c)).reverse

/-- Model of `os.path.basename` (ntpath flavour). -/
def basename (s : String) : String := String.mk (basenameList s.toList)

/-- Index of the last dot in a character list, if any. -/
def lastDotIdx (cs : List Char) : Option Nat :=
  match cs.reverse.findIdx? (fun c => c = '.') with
  | some j => some (cs.length - 1 - j)
  | none => none

/-- Model of `os.path.splitext` on a separator-free name: split at the
last dot when a non-dot character precedes it, else no extension. -/
def splitext (s : String) : String × String :=
  let cs := s.toList
  match lastDotIdx cs with
  | some i =>
      if (cs.take i).any (fun c => c != '.') then
        (String.mk (cs.take i), String.mk (cs.drop i))
      else (s, "")
  | none => (s, "")

/-! ## Parameter dictionaries and uuid extraction
(task_processors.py lines 50-66; dispatcher_server.py lines 67-94 hold
byte-identical copies of the same two functions) -/

/-- Python dict assignment `d[k] = v`: replace in place when the key
exists, else append. -/
def dictInsert (d : List (String × String)) (k v : String) :
    List (String × String) :=
  if d.any (fun p => p.1 == k) then
    d.map (fun p => if p.1 == k then (k, v) else p)
  else d ++ [(k, v)]

/-- Model of `BaseTaskProcessor.normalize_parms`: a dict comprehension
lower-casing every key; on a collision the later entry wins, as in a
Python dict build. -/
def normalize_parms (parms : List (String × String)) :
    List (String × String) :=
  parms.foldl (fun acc p => dictInsert acc (pyLower p.1) p.2) []

/-- Python `d.get(k)` on a string-valued dict. -/
def dget (d : List (String × String)) (k : String) : Option String :=
  (d.find? (fun p => p.1 == k)).map (·.2)

/-- The inbound job payload, restricted to the fields the processors
read.  `Option` encodes key presence; values the code treats as
strings are modelled as strings. -/
structure Payload where
  hip : Option String
  cook_node : Option String
  parm_node : Option String
  uuid : Option String
  parms : List (String × String)
  hython : Option String
  hfs : Option String
  timeout_sec : Nat
  post_timeout_sec : Nat
  post_wait_sec : Nat
deriving Repr, DecidableEq

/-- Model of `BaseTaskProcessor.extract_uuid` (and of the identical
`dispatcher_server._extract_uuid`): prefer a non-blank top-level uuid,
else derive one from `parms["room_file"]` by taking the basename and
stripping its extension, else the empty string. -/
def extract_uuid (p : Payload) (parms_lower : List (String × String)) :
    String :=
  let uuid_val := pyStrip (pyStrOr p.uuid)
  if uuid_val != "" then uuid_val
  else
    let room_file := pyStrip (pyStrOr (dget parms_lower "room_file"))
    if room_file != "" then (splitext (basename room_file)).1
    else ""

/-- Model of `BaseTaskProcessor.resolve_hython_path`: an explicit
truthy `hython` field wins; otherwise `<hfs>/bin/hython.exe` from the
payload's `hfs` or the process environment's HFS; `none` models the
ValueError raised when neither is available. -/
def resolve_hython_path (p : Payload) (envHFS : Option String) :
    Option String :=
  match pyTruthyOpt p.hython with
  | some h => some h
  | none =>
      match (pyTruthyOpt p.hfs).orElse (fun _ => pyTruthyOpt envHFS) with
      | some hfs => some (hfs ++ "/bin/hython.exe")
      | none => none

/-! ## Log system (src/houdini/log_system.py) -/

/-- Model of `LogSystem.detail_dir`: `<hip_dir>/export/serve/log/detail`
when the hip file's directory resolves to an existing directory
(`_hip_dir`, an oracle), else None. -/
def detail_dir (hipDir : Option String) : Option String :=
  hipDir.map (fun d => d ++ "/export/serve/log/detail")

/-- Model of `LogSystem.write_detail_log`: refuses a blank hip path or
a blank uuid, resolves the detail directory, creates it (`mkdirOk` is
the oracle for `_ensure_dir`), and returns the path written.  `none`
means no record was written. -/
def write_detail_log (hipDir : Option String) (mkdirOk : Bool)
    (hip_path uuid_val : String) : Option String :=
  if hip_path = "" || uuid_val = "" then none
  else
    match detail_dir hipDir with
    | none => none
    | some d => if mkdirOk then some (d ++ "/" ++ uuid_val ++ ".json") else none

/-- One stack/history element as persisted in a user log file.  The
file is arbitrary JSON (`_load_user_state` accepts whatever it finds),
so an element is either a JSON object — with the keys the code reads,
plus an opaque remainder `extra` preserved by `dict(t)` copies — or
any non-object value, on which the code's `isinstance(..., dict)`
guards fire. -/
structure UEntry where
  process_name : Option String
  uuid : Option String
  request_time : Option String
  status : Option String
  replaced_at : Option String
  extra : Nat
deriving Repr, DecidableEq

inductive StackItem where
  | entry (e : UEntry)
  | other (tag : Nat)
deriving Repr, DecidableEq

/-- The persisted per-user state (stack plus history). -/
structure UserState where
  user_id : String
  stack : List StackItem
  history : List StackItem
  updated_at : String
deriving Repr, DecidableEq

/-- Copy of an entry with status forced to "replaced" and a
replaced_at timestamp, as in lines 179-181 and 187-189 of
log_system.py. -/
def markReplaced (e : UEntry) (t : String) : UEntry :=
  { e with status := some "replaced", replaced_at := some t }

/-- The new stack entry built at lines 158-163 of log_system.py. -/
def newUEntry (pn uv rt st : String) : UEntry :=
  { process_name := some pn, uuid := some uv, request_time := some rt,
    status := some st, replaced_at := none, extra := 0 }

/-- The search loop at lines 165-169: first index holding a dict whose
process_name equals the requested name. -/
def findProcessIdx : List StackItem → String → Option Nat
  | [], _ => none
  | it :: rest, pn =>
      match it with
      | .entry e =>
          if e.process_name == some pn then some 0
          else (findProcessIdx rest pn).map (· + 1)
      | .other _ => (findProcessIdx rest pn).map (· + 1)

/-- The state transformation of `append_or_replace_user_stack`
(log_system.py lines 155-195), after the state has been loaded. -/
def append_or_replace_core (s : UserState) (pn uv rt st : String) :
    UserState :=
  let ne := StackItem.entry (newUEntry pn uv rt st)
  match findProcessIdx s.stack pn with
  | none =>
      { s with stack := s.stack ++ [ne], updated_at := rt }
  | some idx =>
      let tail := s.stack.drop (idx + 1)
      let hist1 := s.history ++ tail.filterMap (fun it =>
        match it with
        | .entry e => some (StackItem.entry (markReplaced e rt))
        | .other _ => none)
      let stack1 := s.stack.take (idx + 1)
      let hist2 := match stack1.get? idx with
        | some (.entry e) => hist1 ++ [StackItem.entry (markReplaced e rt)]
        | _ => hist1
      { s with stack := stack1.set idx ne, history := hist2, updated_at := rt }

/-- Result of a full `append_or_replace_user_stack` call: either the
guard clauses returned None without touching anything, or the loaded
state was transformed and written back. -/
inductive UserStackOutcome where
  | skipped
  | written (s : UserState)
deriving Repr, DecidableEq

/-- Model of `LogSystem.append_or_replace_user_stack` including its
guards (lines 148-153): any blank argument, or an unresolvable user
log path (`upathOk` oracle), returns None and performs no update. -/
def append_or_replace_user_stack (hip_path user_id pn uv rt st : String)
    (upathOk : Bool) (loaded : UserState) : UserStackOutcome :=
  if hip_path = "" || user_id = "" || pn = "" || uv = "" || rt = "" then
    .skipped
  else if !upathOk then .skipped
  else .written (append_or_replace_core loaded pn uv rt st)

/-! ## Process runner and dual-channel result resolution
(task_processors.py lines 80-97 and 178-194) -/

/-- Outcome of one `subprocess.run` call, as seen by the caller: the
process finished, the timeout expired (`subprocess.TimeoutExpired`
raised), or spawning/IO failed with some other exception. -/
inductive RunOutcome where
  | timeout
  | err (msg : String)
  | finished (returncode : Int) (stdout : String) (stderr : String)
      (elapsed_ms : Nat)
deriving Repr, DecidableEq

/-- The dict returned by `BaseTaskProcessor.run_subprocess` when the
process finished: streams are stripped of surrounding whitespace. -/
structure SubprocResult where
  returncode : Int
  stdout : String
  stderr : String
  elapsed_ms : Nat
deriving Repr, DecidableEq

def mkSubprocResult (rc : Int) (out err : String) (el : Nat) :
    SubprocResult :=
  { returncode := rc, stdout := pyStrip out, stderr := pyStrip err,
    elapsed_ms := el }

/-- What the worker-output resolution block leaves behind: the payload
(if any), whether the fallback file was consulted, and whether the
fallback file still exists afterwards.  Deleting the consumed fallback
file is modelled as succeeding (the source wraps `os.remove` in a
swallow-all try block). -/
structure ResolveOutcome where
  worker_json : Option JObj
  fallbackRead : Bool
  fallbackExistsAfter : Bool
deriving Repr, DecidableEq

/-- Model of the dual-channel resolution block (task_processors.py
lines 178-194, duplicated at 398-415 and in dispatcher_server.py):
parse stdout when non-empty; failing that, read, parse and delete the
fallback file when it exists; else no payload.  `stdoutParse` and
`fallbackParse` are the json.loads oracles for the two channels. -/
def resolve_worker_json (stdout : String) (stdoutParse : Option JObj)
    (fallbackExists : Bool) (fallbackParse : Option JObj) :
    ResolveOutcome :=
  let wj1 : Option JObj := if stdout != "" then stdoutParse else none
  match wj1 with
  | some o =>
      { worker_json := some o, fallbackRead := false,
        fallbackExistsAfter := fallbackExists }
  | none =>
      if fallbackExists then
        { worker_json := fallbackParse, fallbackRead := true,
          fallbackExistsAfter := false }
      else
        { worker_json := none, fallbackRead := false,
          fallbackExistsAfter := false }

/-! ## RoomGenerationProcessor.execute (task_processors.py 117-286) -/

/-- The post-stage summary dict built at lines 220-245. -/
structure PostInfo where
  returncode : Option Int
  stdoutField : String
  stderrField : String
  json : Option JObj
  elapsed_ms_post : Nat
  ok : Bool
deriving Repr, DecidableEq

/-- Environment oracle for one `RoomGenerationProcessor.execute` call:
process-environment HFS, the file-existence checks, the two subprocess
invocations, the json.loads results for each channel, and the log
store's directory resolution. -/
structure RGEnv where
  envHFS : Option String
  hythonIsFile : Bool
  workerIsFile : Bool
  run1 : RunOutcome
  stdoutParse : Option JObj
  fallbackIsFile : Bool
  fallbackParse : Option JObj
  postReaderIsFile : Bool
  postRun : RunOutcome
  postStdoutParse : Option JObj
  hipDir : Option String
  detailMkdirOk : Bool
deriving Repr, DecidableEq

/-- The dict returned by `RoomGenerationProcessor.execute`, one
constructor per return statement: the catch-all error dict, the
primary-success dict (worker_json.copy() plus elapsed and post), and
the primary-failure dict. -/
inductive RGResp where
  | errorResp (msg : String)
  | success (payload : JObj) (elapsed_ms_dispatch : Nat)
      (post : Option PostInfo)
  | failure (elapsed_ms_dispatch : Nat) (returncode : Int)
      (stdout stderr : String) (worker_json : Option JObj)
      (post : Option PostInfo)
deriving Repr, DecidableEq

/-- Truthiness of the "ok" field of the returned dict. -/
def RGResp.okField : RGResp → Bool
  | .errorResp _ => false
  | .success payload _ _ => wjOkB (some payload)
  | .failure _ _ _ _ _ _ => false

/-- Result of one execute call together with its observable side
effects: how many times `write_detail_log` was called, the path it
returned (None when nothing was recorded), whether the post stage was
launched, and the fate of the two temporary files. -/
structure RGResult where
  resp : RGResp
  detailCalls : Nat
  detailPath : Option String
  postAttempted : Bool
  tempFilesCreated : Bool
  jobFileRemoved : Bool
  fallbackExistsAfter : Bool
deriving Repr, DecidableEq

/-- An early return before the temporary files are created. -/
def rgEarly (r : RGResp) : RGResult :=
  { resp := r, detailCalls := 0, detailPath := none,
    postAttempted := false, tempFilesCreated := false,
    jobFileRemoved := false, fallbackExistsAfter := false }

/-- The post stage body (lines 200-245), entered only when the primary
stage succeeded and a correlation id is available: run the json2jpg
helper under its own timeout and fold timeout/exception into a
degraded summary.  Returns the post_info and whether a subprocess was
actually launched. -/
def rgPostStage (env : RGEnv) : Option PostInfo × Bool :=
  if env.postReaderIsFile then
    match env.postRun with
    | .timeout =>
        (some { returncode := none, stdoutField := "", stderrField := "json2jpg timeout",
                json := none, elapsed_ms_post := 0, ok := false }, true)
    | .err m =>
        (some { returncode := none, stdoutField := "", stderrField := m,
                json := none, elapsed_ms_post := 0, ok := false }, true)
    | .finished prc pout perr pel =>
        let pres := mkSubprocResult prc pout perr pel
        let pj : Option JObj :=
          if pres.stdout != "" then env.postStdoutParse else none
        (some { returncode := some prc, stdoutField := "", stderrField := "",
                json := pj, elapsed_ms_post := pres.elapsed_ms,
                ok := wjOkB pj && (prc == 0) }, true)
  else (none, false)

/-- Model of `RoomGenerationProcessor.execute`.  The whole body runs
inside a catch-all try, so a primary-stage timeout or spawn error
surfaces as the generic error dict of line 286 — after the finally
block has removed the job file but before any detail log is
written. -/
def executeRG (p : Payload) (env : RGEnv) : RGResult :=
  match pyTruthyOpt p.hip, pyTruthyOpt p.cook_node with
  | none, _ => rgEarly (.errorResp "missing hip or cook_node")
  | some _, none => rgEarly (.errorResp "missing hip or cook_node")
  | some hip, some _ =>
      match resolve_hython_path p env.envHFS with
      | none => rgEarly (.errorResp "no hython path and no HFS")
      | some _ =>
          if !env.hythonIsFile then rgEarly (.errorResp "hython not found")
          else if !env.workerIsFile then
            rgEarly (.errorResp "worker script not found")
          else
            match env.run1 with
            | .timeout =>
                { resp := .errorResp "TimeoutExpired", detailCalls := 0,
                  detailPath := none, postAttempted := false,
                  tempFilesCreated := true, jobFileRemoved := true,
                  fallbackExistsAfter := true }
            | .err m =>
                { resp := .errorResp m, detailCalls := 0,
                  detailPath := none, postAttempted := false,
                  tempFilesCreated := true, jobFileRemoved := true,
                  fallbackExistsAfter := true }
            | .finished rc out err el =>
                let hres := mkSubprocResult rc out err el
                let ro := resolve_worker_json hres.stdout env.stdoutParse
                  env.fallbackIsFile env.fallbackParse
                let wj := ro.worker_json
                let uuid_val := extract_uuid p (normalize_parms p.parms)
                let post :=
                  if rc == 0 && wjOkB wj && (uuid_val != "") then
                    rgPostStage env
                  else (none, false)
                let dpath := write_detail_log env.hipDir env.detailMkdirOk
                  hip uuid_val
                let resp :=
                  if rc == 0 && wjOkB wj then
                    match wj with
                    | some o => RGResp.success o hres.elapsed_ms post.1
                    | none => RGResp.failure hres.elapsed_ms rc hres.stdout
                        hres.stderr wj post.1
                  else
                    RGResp.failure hres.elapsed_ms rc hres.stdout
                      hres.stderr wj post.1
                { resp := resp, detailCalls := 1, detailPath := dpath,
                  postAttempted := post.2, tempFilesCreated := true,
                  jobFileRemoved := true,
                  fallbackExistsAfter := ro.fallbackExistsAfter }

/-! ## RoomRegenProcessor.execute (task_processors.py 298-450) -/

/-- Environment oracle for one `RoomRegenProcessor.execute` call. -/
structure RREnv where
  envHFS : Option String
  png2jsonScriptIsFile : Bool
  pngRun : RunOutcome
  pngStdoutParse : Option JObj
  run1 : RunOutcome
  stdoutParse : Option JObj
  fallbackIsFile : Bool
  fallbackParse : Option JObj
  hipDir : Option String
  detailMkdirOk : Bool
deriving Repr, DecidableEq

/-- The dict returned by `RoomRegenProcessor.execute`, one constructor
per return statement.  The success dict's post field is the constant
`{"ok": True, "note": "no post process for room_regen"}` and is not
repeated here. -/
inductive RRResp where
  | errorResp (msg : String)
  | success (payload : JObj) (elapsed_ms_dispatch : Nat)
  | failure (elapsed_ms_dispatch : Nat) (returncode : Int)
      (stdout stderr : String) (worker_json : Option JObj)
deriving Repr, DecidableEq

def RRResp.okField : RRResp → Bool
  | .errorResp _ => false
  | .success payload _ => wjOkB (some payload)
  | .failure _ _ _ _ _ => false

structure RRResult where
  resp : RRResp
  detailCalls : Nat
  detailPath : Option String
  tempFilesCreated : Bool
  jobFileRemoved : Bool
  fallbackExistsAfter : Bool
deriving Repr, DecidableEq

def rrEarly (r : RRResp) : RRResult :=
  { resp := r, detailCalls := 0, detailPath := none,
    tempFilesCreated := false, jobFileRemoved := false,
    fallbackExistsAfter := false }

/-- The png2json pre-stage (lines 329-366): missing script, a raised
exception or timeout, empty stdout, unparseable stdout, or a payload
without a truthy ok flag each cause an early error return; only a
truthy ok payload lets the job continue. -/
def rrPngStage (env : RREnv) : Option RRResp :=
  if env.png2jsonScriptIsFile then
    match env.pngRun with
    | .timeout => some (.errorResp "png2json execution failed")
    | .err _ => some (.errorResp "png2json execution failed")
    | .finished _ pout _ _ =>
        let pstdout := pyStrip pout
        if pstdout != "" then
          match env.pngStdoutParse with
          | none => some (.errorResp "cannot parse png2json output")
          | some info =>
              if !(okTruthy info) then some (.errorResp "png to json failed")
              else none
        else some (.errorResp "png2json produced no output")
  else some (.errorResp "png2json script not found")

/-- Model of `RoomRegenProcessor.execute`.  Note two deliberate
differences from the room_generation processor, both present in the
source: `payload["hip"]` / `payload["cook_node"]` raise on absent keys
(caught by the catch-all), `resolve_hython_path` is evaluated even
when an explicit hython value is given (Python evaluates the
`dict.get` default argument eagerly), and the final success test at
line 433 checks only the resolved payload — never the exit code. -/
def executeRR (p : Payload) (env : RREnv) : RRResult :=
  match p.hip, p.cook_node with
  | none, _ => rrEarly (.errorResp "KeyError: hip")
  | some _, none => rrEarly (.errorResp "KeyError: cook_node")
  | some hip, some _ =>
      let parms := normalize_parms p.parms
      let uuid_val := extract_uuid p parms
      match resolve_hython_path p env.envHFS with
      | none => rrEarly (.errorResp "no hython path and no HFS")
      | some _ =>
          match rrPngStage env with
          | some r => rrEarly r
          | none =>
              match env.run1 with
              | .timeout =>
                  { resp := .errorResp "TimeoutExpired", detailCalls := 0,
                    detailPath := none, tempFilesCreated := true,
                    jobFileRemoved := true, fallbackExistsAfter := true }
              | .err m =>
                  { resp := .errorResp m, detailCalls := 0,
                    detailPath := none, tempFilesCreated := true,
                    jobFileRemoved := true, fallbackExistsAfter := true }
              | .finished rc out err el =>
                  let hres := mkSubprocResult rc out err el
                  let ro := resolve_worker_json hres.stdout env.stdoutParse
                    env.fallbackIsFile env.fallbackParse
                  let wj := ro.worker_json
                  let dpath := write_detail_log env.hipDir
                    env.detailMkdirOk hip uuid_val
                  let resp :=
                    if wjOkB wj then
                      match wj with
                      | some o => RRResp.success o hres.elapsed_ms
                      | none => RRResp.failure hres.elapsed_ms rc
                          hres.stdout hres.stderr wj
                    else
                      RRResp.failure hres.elapsed_ms rc hres.stdout
                        hres.stderr wj
                  { resp := resp, detailCalls := 1, detailPath := dpath,
                    tempFilesCreated := true, jobFileRemoved := true,
                    fallbackExistsAfter := ro.fallbackExistsAfter }

/-! ## Raster codec (src/houdini/json2jpg.py pixels_to_image,
src/houdini/png2json.py image_to_pixels)

Python floats are modelled as rationals.  Python's round() is
round-half-to-even while Mathlib's is round-half-up; the two agree
except at exact .5 ties, and both satisfy the half-unit bound the
round-trip tolerance rests on, so the choice is immaterial to every
statement below. -/

/-- A normalized RGB triple (components contractually in [0,1]). -/
abbrev Pix := ℚ × ℚ × ℚ

/-- An 8-bit RGB triple as stored in the raster. -/
abbrev IPix := ℤ × ℤ × ℤ

/-- The clamp01 helper of pixels_to_image. -/
def clamp01 (x : ℚ) : ℚ := if x < 0 then 0 else if 1 < x then 1 else x

/-- One channel of the [0,1] → 0..255 quantization:
`int(round(clamp01(v) * 255))`. -/
def quantChan (v : ℚ) : ℤ := round (clamp01 v * 255)

def quantPix (p : Pix) : IPix := (quantChan p.1, quantChan p.2.1, quantChan p.2.2)

/-- One channel of the 0..255 → [0,1] normalization (`v / 255.0`). -/
def normChan (v : ℤ) : ℚ := (v : ℚ) / 255

def normPix (c : IPix) : Pix := (normChan c.1, normChan c.2.1, normChan c.2.2)

/-- A raster image as a pixel lookup (PIL getpixel); coordinates
outside the written area read as the fill colour (0,0,0) of
`Image.new`. -/
abbrev Raster := Nat → Nat → IPix

def newImage : Raster := fun _ _ => (0, 0, 0)

/-- PIL putpixel. -/
def putpixel (img : Raster) (x y : Nat) (c : IPix) : Raster :=
  fun a b => if a = x ∧ b = y then c else img a b

/-- One iteration of the write loop of `pixels_to_image`: skip an
index at or beyond the canvas size, otherwise write the quantized
pixel at `(idx mod width, height - 1 - idx / width)` — flipping the
bottom-left-origin index convention to PIL's top-left origin. -/
def putStep (width height : Nat) (img : Raster) (ip : Nat × Pix) : Raster :=
  if width * height ≤ ip.1 then img
  else putpixel img (ip.1 % width) (height - 1 - ip.1 / width)
    (quantPix ip.2)

/-- Model of `pixels_to_image` (json2jpg.py lines 117-147).  The
source breaks out of the loop at the first `idx ≥ width*height`; since
enumeration indices increase, skipping those writes is equivalent. -/
def pixels_to_image (pixels : List Pix) (width height : Nat) : Raster :=
  pixels.enum.foldl (putStep width height) newImage

/-- Model of `image_to_pixels` (png2json.py lines 65-99): scan rows
from the bottom of the image upward (`y` from height-1 down to 0, the
j-th outer iteration reading row `height - 1 - j`), left to right,
normalizing each channel. -/
def image_to_pixels (img : Raster) (width height : Nat) : List Pix :=
  ((List.range height).map (fun j =>
    (List.range width).map (fun x => normPix (img x (height - 1 - j))))).flatten

/-! ## Derived notions about the processors, used in statements -/

/-- The conditions under which a room_generation attempt passes every
pre-flight check and reaches the primary-stage invocation. -/
def rgReachesResolve (p : Payload) (env : RGEnv) : Prop :=
  (pyTruthyOpt p.hip).isSome = true ∧
  (pyTruthyOpt p.cook_node).isSome = true ∧
  (resolve_hython_path p env.envHFS).isSome = true ∧
  env.hythonIsFile = true ∧ env.workerIsFile = true

/-- The payload the dual-channel resolver yields for the primary stage
of a room_generation attempt whose raw stdout was `rawOut`. -/
def rgResolved (env : RGEnv) (rawOut : String) : Option JObj :=
  (resolve_worker_json (pyStrip rawOut) env.stdoutParse env.fallbackIsFile
    env.fallbackParse).worker_json

/-- Same resolver applied to a room_regen environment. -/
def rrResolved (env : RREnv) (rawOut : String) : Option JObj :=
  (resolve_worker_json (pyStrip rawOut) env.stdoutParse env.fallbackIsFile
    env.fallbackParse).worker_json

/-- The post-process stage failed: it timed out, raised, or finished
without a zero exit code and a parsed payload reporting success. -/
def rgPostFailed (env : RGEnv) : Prop :=
  match env.postRun with
  | .timeout => True
  | .err _ => True
  | .finished prc pout _ _ =>
      ¬(prc = 0 ∧
        wjOkB (if pyStrip pout != "" then env.postStdoutParse else none) = true)

/-- The conditions under which a room_regen attempt passes its key
lookups, hython-path resolution and the png2json pre-stage, reaching
the primary-stage invocation. -/
def rrReachesHython (p : Payload) (env : RREnv) : Prop :=
  p.hip.isSome = true ∧ p.cook_node.isSome = true ∧
  (resolve_hython_path p env.envHFS).isSome = true ∧ rrPngStage env = none

/-! ## Derived notions about user-stack states, used in statements -/

/-- The Boolean test the search loop applies to one stack element. -/
def itemMatchesB (pn : String) : StackItem → Bool
  | .entry e => e.process_name == some pn
  | .other _ => false

/-- The process name an element contributes to the one-slot-per-name
invariant: non-dict elements have none. -/
def nameOf : StackItem → Option String
  | .entry e => e.process_name
  | .other _ => none

def isEntryB : StackItem → Bool
  | .entry _ => true
  | .other _ => false

/-- Number of dict elements in a list of stack items. -/
def entryCount (l : List StackItem) : Nat := (l.filter isEntryB).length

/-- The stack invariant of the spec: at most one live entry per
distinct process_name value (elements without a name are
unconstrained). -/
def NoDupNames (l : List StackItem) : Prop :=
  l.Pairwise (fun a b => nameOf a = none ∨ nameOf a ≠ nameOf b)

instance instDecNoDupNames (l : List StackItem) : Decidable (NoDupNames l) :=
  inferInstanceAs (Decidable (l.Pairwise _))

/-- The elements a call removes or replaces from the stack: everything
from the first matching index on (empty when the call appends). -/
def removedItems (stack : List StackItem) (pn : String) : List StackItem :=
  match findProcessIdx stack pn with
  | none => []
  | some i => stack.drop i

/-- The history element produced from one replaced dict entry. -/
def markFn (rt : String) : StackItem → Option StackItem
  | .entry e => some (.entry (markReplaced e rt))
  | .other _ => none

/-- Helper: the record produced by the finished primary-stage branch
of room_generation. -/
def rgFinishedResult (p : Payload) (env : RGEnv) (hip : String)
    (rc : Int) (out err : String) (el : Nat) : RGResult :=
  let hres := mkSubprocResult rc out err el
  let ro := resolve_worker_json hres.stdout env.stdoutParse
    env.fallbackIsFile env.fallbackParse
  let wj := ro.worker_json
  let uuid_val := extract_uuid p (normalize_parms p.parms)
  let post :=
    if rc == 0 && wjOkB wj && (uuid_val != "") then rgPostStage env
    else (none, false)
  let resp :=
    if rc == 0 && wjOkB wj then
      match wj with
      | some o => RGResp.success o hres.elapsed_ms post.1
      | none => RGResp.failure hres.elapsed_ms rc hres.stdout hres.stderr
          wj post.1
    else
      RGResp.failure hres.elapsed_ms rc hres.stdout hres.stderr wj post.1
  { resp := resp, detailCalls := 1,
    detailPath := write_detail_log env.hipDir env.detailMkdirOk hip uuid_val,
    postAttempted := post.2, tempFilesCreated := true,
    jobFileRemoved := true, fallbackExistsAfter := ro.fallbackExistsAfter }

/-- Helper: the record produced by the finished primary-stage branch
of room_regen. -/
def rrFinishedResult (p : Payload) (env : RREnv) (hip : String)
    (rc : Int) (out err : String) (el : Nat) : RRResult :=
  let hres := mkSubprocResult rc out err el
  let ro := resolve_worker_json hres.stdout env.stdoutParse
    env.fallbackIsFile env.fallbackParse
  let wj := ro.worker_json
  let uuid_val := extract_uuid p (normalize_parms p.parms)
  let resp :=
    if wjOkB wj then
      match wj with
      | some o => RRResp.success o hres.elapsed_ms
      | none => RRResp.failure hres.elapsed_ms rc hres.stdout hres.stderr wj
    else
      RRResp.failure hres.elapsed_ms rc hres.stdout hres.stderr wj
  { resp := resp, detailCalls := 1,
    detailPath := write_detail_log env.hipDir env.detailMkdirOk hip uuid_val,
    tempFilesCreated := true, jobFileRemoved := true,
    fallbackExistsAfter := ro.fallbackExistsAfter }

/-! ## Theorems -/

/-- Helper: the search loop finds the first dict whose process_name
matches; everything before it fails the test. -/
theorem findProcessIdx_spec (stack : List StackItem) (pn : String) (i : Nat)
    (h : findProcessIdx stack pn = some i) :
    (∀ it ∈ stack.take i, itemMatchesB pn it = false) ∧
    ∃ e, stack.get? i = some (.entry e) ∧ e.process_name = some pn := by
  induction stack generalizing i with
  | nil => simp [findProcessIdx] at h
  | cons it rest ih =>
    cases it with
    | entry e =>
      cases hm : (e.process_name == some pn) with
      | true =>
        simp [findProcessIdx, hm] at h
        subst h
        exact ⟨by simp, e, rfl, eq_of_beq hm⟩
      | false =>
        cases hfr : findProcessIdx rest pn with
        | none => simp [findProcessIdx, hm, hfr] at h
        | some i0 =>
          simp [findProcessIdx, hm, hfr] at h
          subst h
          obtain ⟨htake, e2, hget, hpn⟩ := ih i0 hfr
          refine ⟨?_, e2, hget, hpn⟩
          intro x hx
          rcases List.mem_cons.mp (by simpa [List.take_succ_cons] using hx)
            with hx1 | hx2
          · subst hx1; simpa [itemMatchesB] using hm
          · exact htake x hx2
    | other t =>
      cases hfr : findProcessIdx rest pn with
      | none => simp [findProcessIdx, hfr] at h
      | some i0 =>
        simp [findProcessIdx, hfr] at h
        subst h
        obtain ⟨htake, e2, hget, hpn⟩ := ih i0 hfr
        refine ⟨?_, e2, hget, hpn⟩
        intro x hx
        rcases List.mem_cons.mp (by simpa [List.take_succ_cons] using hx)
          with hx1 | hx2
        · subst hx1; rfl
        · exact htake x hx2

/-- Helper: a failed search means no element matches. -/
theorem findProcessIdx_none_spec (stack : List StackItem) (pn : String)
    (h : findProcessIdx stack pn = none) :
    ∀ it ∈ stack, itemMatchesB pn it = false := by
  induction stack with
  | nil => simp
  | cons it rest ih =>
    intro x hx
    cases it with
    | entry e =>
      cases hm : (e.process_name == some pn) with
      | true => simp [findProcessIdx, hm] at h
      | false =>
        simp only [findProcessIdx, hm, Bool.false_eq_true, if_false,
          Option.map_eq_none'] at h
        rcases List.mem_cons.mp hx with hx1 | hx2
        · subst hx1; simpa [itemMatchesB] using hm
        · exact ih h x hx2
    | other t =>
      simp only [findProcessIdx, Option.map_eq_none'] at h
      rcases List.mem_cons.mp hx with hx1 | hx2
      · subst hx1; rfl
      · exact ih h x hx2

/-- Helper: setting the last element of a take. -/
theorem take_set_eq_append (l : List StackItem) (i : Nat) (x : StackItem)
    (h : i < l.length) : (l.take (i+1)).set i x = l.take i ++ [x] := by
  induction l generalizing i with
  | nil => simp at h
  | cons a rest ih =>
    cases i with
    | zero => simp
    | succ i0 =>
      have h0 : i0 < rest.length := by simpa using h
      simp only [List.take_succ_cons, List.set_cons_succ, List.cons_append,
        List.cons.injEq, true_and]
      exact ih i0 h0

/-- Helper: full characterization of the replace branch of
`append_or_replace_core` in terms of the found index. -/
theorem append_core_found (stack : List StackItem) (pn : String) (i : Nat)
    (hfind : findProcessIdx stack pn = some i) (uid : String)
    (hist : List StackItem) (upd uv rt st : String) :
    ∃ e, stack.get? i = some (.entry e) ∧ e.process_name = some pn ∧
      append_or_replace_core ⟨uid, stack, hist, upd⟩ pn uv rt st =
        ⟨uid, stack.take i ++ [.entry (newUEntry pn uv rt st)],
          hist ++ (stack.drop (i+1)).filterMap (markFn rt)
            ++ [.entry (markReplaced e rt)], rt⟩ := by
  obtain ⟨-, e, hget, hpn⟩ := findProcessIdx_spec stack pn i hfind
  have hilen : i < stack.length := by
    rcases List.get?_eq_some.mp hget with ⟨hw, -⟩; exact hw
  refine ⟨e, hget, hpn, ?_⟩
  have htk : (stack.take (i+1)).get? i = stack.get? i :=
    List.get?_take (Nat.lt_succ_self i)
  simp only [append_or_replace_core, hfind, htk.trans hget, markFn,
    take_set_eq_append stack i _ hilen]
  rfl

/-- C3 as stated is false: a non-dict element sitting after the
matched index is dropped without entering history, so history gains
fewer than (stack_length_before - i) records.  Concretely, with a
stack [dict(process_name="p"), 42] loaded from a user file, updating
"p" finds index 0, the claim demands 2 new history records, and the
code adds exactly 1. -/
theorem c3_counterexample :
    (let st0 : List StackItem :=
      [.entry (newUEntry "p" "u1" "t1" "completed"), .other 42]
    let s0 : UserState :=
      { user_id := "u", stack := st0, history := [], updated_at := "t0" }
    findProcessIdx st0 "p" = some 0 ∧ st0.length - 0 = 2 ∧
      (append_or_replace_core s0 "p" "u2" "t2" "completed").history.length
        = s0.history.length + 1) := by
  decide

/-- Helper: the history snippets produced from a tail count exactly
its dict elements. -/
theorem length_filterMap_markFn (l : List StackItem) (rt : String) :
    (l.filterMap (markFn rt)).length = entryCount l := by
  induction l with
  | nil => rfl
  | cons it rest ih =>
    cases it <;> simp [List.filterMap_cons, entryCount, List.filter_cons,
      markFn, isEntryB] at * <;> omega

/-- Helper: when a list holds only dict elements, its dict count is
its length. -/
theorem entryCount_of_all_entries (l : List StackItem)
    (h : ∀ it ∈ l, isEntryB it = true) : entryCount l = l.length := by
  unfold entryCount
  rw [List.filter_eq_self.mpr h]

/-- C3 (amended): when process_name is first found at index i, the
stack is truncated to i+1 with the new entry at index i, and history
gains one record per dict element of stack[i:] — the replaced entry
plus every dict element after it — each marked replaced with
replaced_at equal to the request time.  The gain equals
(stack_length_before - i), as the original claim counts, exactly when
every element of stack[i:] is a dict; non-dict elements loaded from an
externally written file are discarded without entering history. -/
theorem c3_amended (s : UserState) (pn uv rt st : String) (i : Nat)
    (hfind : findProcessIdx s.stack pn = some i) :
    (append_or_replace_core s pn uv rt st).stack.length = i + 1 ∧
    (append_or_replace_core s pn uv rt st).stack.get? i
      = some (.entry (newUEntry pn uv rt st)) ∧
    (append_or_replace_core s pn uv rt st).history.length
      = s.history.length + entryCount (s.stack.drop i) ∧
    (∀ it ∈ (append_or_replace_core s pn uv rt st).history.drop
        s.history.length,
      ∃ e2, it = .entry e2 ∧ e2.status = some "replaced" ∧
        e2.replaced_at = some rt) ∧
    ((∀ it ∈ s.stack.drop i, isEntryB it = true) →
      (append_or_replace_core s pn uv rt st).history.length
        = s.history.length + (s.stack.length - i)) := by
  obtain ⟨uid, stack, hist, upd⟩ := s
  obtain ⟨e, hget, hpn, heq⟩ :=
    append_core_found stack pn i hfind uid hist upd uv rt st
  rcases List.get?_eq_some.mp hget with ⟨hilen, hgete⟩
  have htake_len : (stack.take i).length = i := by
    simp [List.length_take, Nat.min_eq_left (Nat.le_of_lt hilen)]
  have hdrop : stack.drop i = StackItem.entry e :: stack.drop (i+1) := by
    rw [List.drop_eq_get_cons hilen, hgete]
  have hcount : entryCount (stack.drop i)
      = entryCount (stack.drop (i+1)) + 1 := by
    rw [hdrop]; simp [entryCount, List.filter_cons, isEntryB]
  refine ⟨?_, ?_, ?_, ?_, ?_⟩
  · rw [heq]; simp [htake_len]
  · rw [heq]
    have := List.get?_concat_length (stack.take i)
      (StackItem.entry (newUEntry pn uv rt st))
    rwa [htake_len] at this
  · rw [heq]
    simp only [List.append_assoc, List.length_append,
      length_filterMap_markFn, List.length_singleton]
    omega
  · rw [heq]
    simp only [List.append_assoc, List.drop_left]
    intro it hit
    rcases List.mem_append.mp hit with hfm | hsing
    · rcases List.mem_filterMap.mp hfm with ⟨a, -, hmark⟩
      cases a with
      | entry e2 =>
          refine ⟨markReplaced e2 rt, ?_, rfl, rfl⟩
          simpa [markFn] using hmark.symm
      | other t => simp [markFn] at hmark
    · rcases List.mem_singleton.mp hsing with rfl
      exact ⟨markReplaced e rt, rfl, rfl, rfl⟩
  · intro hall
    rw [heq]
    simp only [List.append_assoc, List.length_append,
      length_filterMap_markFn, List.length_singleton]
    have h1 : entryCount (stack.drop (i+1)) = (stack.drop (i+1)).length := by
      refine entryCount_of_all_entries _ (fun it hit => hall it ?_)
      rw [hdrop]; exact List.mem_cons_of_mem _ hit
    rw [h1, List.length_drop]
    omega

/-- Witness for C3 (amended) on a singleton stack holding the matched
process name. -/
theorem c3_witness :
    findProcessIdx [StackItem.entry (newUEntry "p" "u1" "t1" "completed")]
      "p" = some 0 ∧
    (append_or_replace_core
      ⟨"u", [StackItem.entry (newUEntry "p" "u1" "t1" "completed")], [],
        "t0"⟩ "p" "u2" "t2" "completed").stack.length = 0 + 1 :=
  ⟨by decide,
    (c3_amended
      ⟨"u", [StackItem.entry (newUEntry "p" "u1" "t1" "completed")], [],
        "t0"⟩ "p" "u2" "t2" "completed" 0 (by decide)).1⟩

/-- C4 as stated is false on the same loadable states: a non-dict
element removed from the stack is not preserved in history.  With the
stack [dict(process_name="p"), 7] — which satisfies the at-most-one-
entry-per-name invariant — updating "p" truncates the stack, and the
removed element 7 appears in neither the new stack nor history. -/
theorem c4_counterexample :
    (let st0 : List StackItem :=
      [.entry (newUEntry "p" "u1" "t1" "completed"), .other 7]
    let s2 := append_or_replace_core
      ⟨"u", st0, [], "t0"⟩ "p" "u2" "t2" "completed"
    NoDupNames st0 ∧ StackItem.other 7 ∈ st0 ∧
      StackItem.other 7 ∉ s2.stack ∧ StackItem.other 7 ∉ s2.history) := by
  decide

/-- C4 (amended): every update preserves the at-most-one-live-entry-
per-process-name invariant, and every dict entry removed or replaced
from the stack lands in history marked replaced with a replaced_at
timestamp; non-dict stack elements (possible only in externally
written user files) are dropped silently. -/
theorem c4_amended (s : UserState) (pn uv rt st : String)
    (hinv : NoDupNames s.stack) :
    NoDupNames (append_or_replace_core s pn uv rt st).stack ∧
    ∀ e : UEntry, StackItem.entry e ∈ removedItems s.stack pn →
      StackItem.entry (markReplaced e rt)
        ∈ (append_or_replace_core s pn uv rt st).history := by
  obtain ⟨uid, stack, hist, upd⟩ := s
  cases hfind : findProcessIdx stack pn with
  | none =>
    have hnm := findProcessIdx_none_spec stack pn hfind
    have heq : append_or_replace_core ⟨uid, stack, hist, upd⟩ pn uv rt st
        = ⟨uid, stack ++ [.entry (newUEntry pn uv rt st)], hist, rt⟩ := by
      simp [append_or_replace_core, hfind]
    constructor
    · rw [heq]
      refine List.pairwise_append.mpr ⟨hinv, List.pairwise_singleton _ _,
        fun a ha b hb => ?_⟩
      rcases List.mem_singleton.mp hb with rfl
      have := hnm a ha
      cases a with
      | entry e2 =>
          right
          simp only [nameOf, newUEntry]
          simpa [itemMatchesB] using this
      | other t => left; rfl
    · intro e he
      simp only [removedItems, hfind] at he
      exact absurd he (List.not_mem_nil _)
  | some i =>
    obtain ⟨e0, hget, hpn, heq⟩ :=
      append_core_found stack pn i hfind uid hist upd uv rt st
    rcases List.get?_eq_some.mp hget with ⟨hilen, hgete⟩
    obtain ⟨htake, -⟩ := findProcessIdx_spec stack pn i hfind
    constructor
    · rw [heq]
      refine List.pairwise_append.mpr
        ⟨hinv.sublist (List.take_sublist i stack),
          List.pairwise_singleton _ _, fun a ha b hb => ?_⟩
      rcases List.mem_singleton.mp hb with rfl
      have := htake a ha
      cases a with
      | entry e2 =>
          right
          simp only [nameOf, newUEntry]
          simpa [itemMatchesB] using this
      | other t => left; rfl
    · intro e he
      simp only [removedItems, hfind] at he
      rw [List.drop_eq_get_cons hilen, hgete] at he
      rw [heq]
      simp only [List.append_assoc]
      rcases List.mem_cons.mp he with hhd | htl
      · have hee : e = e0 := by injection hhd
        subst hee
        exact List.mem_append_right _
          (List.mem_append_right _ (List.mem_singleton_self _))
      · refine List.mem_append_right _ (List.mem_append_left _ ?_)
        exact List.mem_filterMap.mpr ⟨StackItem.entry e, htl, rfl⟩

/-- Witness for C4 (amended) on a two-entry stack with distinct
names. -/
theorem c4_witness :
    NoDupNames [StackItem.entry (newUEntry "a" "u1" "t1" "completed"),
      StackItem.entry (newUEntry "b" "u2" "t2" "completed")] ∧
    NoDupNames (append_or_replace_core
      ⟨"u", [StackItem.entry (newUEntry "a" "u1" "t1" "completed"),
        StackItem.entry (newUEntry "b" "u2" "t2" "completed")], [],
        "t0"⟩ "a" "u3" "t3" "completed").stack :=
  ⟨by decide,
    (c4_amended
      ⟨"u", [StackItem.entry (newUEntry "a" "u1" "t1" "completed"),
        StackItem.entry (newUEntry "b" "u2" "t2" "completed")], [],
        "t0"⟩ "a" "u3" "t3" "completed" (by decide)).1⟩

/-- C7: dual-channel result resolution with fixed stdout preference:
a parseable non-empty stdout is the payload and the fallback file is
neither read nor deleted; otherwise an existing fallback file is read,
parsed and removed; when both channels fail the payload is None, and
the resolver returns normally (it is a total function — a null payload
is not an error). -/
theorem c7_dual_channel_resolution (stdout : String)
    (sp fp : Option JObj) (fex : Bool) :
    (stdout ≠ "" → ∀ o, sp = some o →
      resolve_worker_json stdout sp fex fp =
        { worker_json := some o, fallbackRead := false,
          fallbackExistsAfter := fex }) ∧
    ((stdout = "" ∨ sp = none) → fex = true →
      resolve_worker_json stdout sp fex fp =
        { worker_json := fp, fallbackRead := true,
          fallbackExistsAfter := false }) ∧
    ((stdout = "" ∨ sp = none) → fex = false →
      (resolve_worker_json stdout sp fex fp).worker_json = none) ∧
    ((stdout = "" ∨ sp = none) → fp = none →
      (resolve_worker_json stdout sp fex fp).worker_json = none) := by
  refine ⟨?_, ?_, ?_, ?_⟩
  · intro hne o hsp
    simp [resolve_worker_json, hsp, hne]
  · rintro (h | h) hfex
    · subst h hfex; simp [resolve_worker_json]
    · subst h hfex; cases hstd : stdout != "" <;>
        simp [resolve_worker_json, hstd]
  · rintro (h | h) hfex
    · subst h hfex; simp [resolve_worker_json]
    · subst h hfex; cases hstd : stdout != "" <;>
        simp [resolve_worker_json, hstd]
  · rintro (h | h) hfp
    · subst h hfp; cases fex <;> simp [resolve_worker_json]
    · subst h hfp; cases fex <;> cases hstd : stdout != "" <;>
        simp [resolve_worker_json, hstd]

/-- Witness for C7 at concrete inputs covering both channels. -/
theorem c7_witness :
    resolve_worker_json "x" (some [("ok", JVal.bool true)]) true none =
      { worker_json := some [("ok", JVal.bool true)], fallbackRead := false,
        fallbackExistsAfter := true } ∧
    resolve_worker_json "" none true (some [("ok", JVal.num 1)]) =
      { worker_json := some [("ok", JVal.num 1)], fallbackRead := true,
        fallbackExistsAfter := false } := by
  refine ⟨?_, ?_⟩
  · exact (c7_dual_channel_resolution "x" (some [("ok", JVal.bool true)])
      none true).1 (by decide) _ rfl
  · exact (c7_dual_channel_resolution "" none
      (some [("ok", JVal.num 1)]) true).2.1 (Or.inl rfl) rfl

/-- Helper: every room_generation attempt lands in one of four
branches: an early validation/resolution return, a primary-stage
timeout, a primary-stage spawn error, or the full pipeline after a
finished primary stage. -/
theorem executeRG_cases (p : Payload) (env : RGEnv) :
    (∃ m, executeRG p env = rgEarly (.errorResp m)) ∨
    (env.run1 = .timeout ∧ executeRG p env =
      { resp := .errorResp "TimeoutExpired", detailCalls := 0,
        detailPath := none, postAttempted := false,
        tempFilesCreated := true, jobFileRemoved := true,
        fallbackExistsAfter := true }) ∨
    (∃ m, env.run1 = .err m ∧ executeRG p env =
      { resp := .errorResp m, detailCalls := 0, detailPath := none,
        postAttempted := false, tempFilesCreated := true,
        jobFileRemoved := true, fallbackExistsAfter := true }) ∨
    (∃ hip rc out err el, pyTruthyOpt p.hip = some hip ∧
      env.run1 = .finished rc out err el ∧
      executeRG p env = rgFinishedResult p env hip rc out err el) := by
  cases hhip : pyTruthyOpt p.hip with
  | none =>
      exact Or.inl ⟨"missing hip or cook_node", by simp [executeRG, hhip]⟩
  | some hip =>
  cases hck : pyTruthyOpt p.cook_node with
  | none =>
      exact Or.inl ⟨"missing hip or cook_node",
        by simp [executeRG, hhip, hck]⟩
  | some cook =>
  cases hres : resolve_hython_path p env.envHFS with
  | none =>
      exact Or.inl ⟨"no hython path and no HFS",
        by simp [executeRG, hhip, hck, hres]⟩
  | some hp =>
  cases hhy : env.hythonIsFile with
  | false =>
      exact Or.inl ⟨"hython not found",
        by simp [executeRG, hhip, hck, hres, hhy]⟩
  | true =>
  cases hwk : env.workerIsFile with
  | false =>
      exact Or.inl ⟨"worker script not found",
        by simp [executeRG, hhip, hck, hres, hhy, hwk]⟩
  | true =>
  cases hrun : env.run1 with
  | timeout =>
      exact Or.inr (Or.inl ⟨rfl,
        by simp [executeRG, hhip, hck, hres, hhy, hwk, hrun]⟩)
  | err m =>
      exact Or.inr (Or.inr (Or.inl ⟨m, rfl,
        by simp [executeRG, hhip, hck, hres, hhy, hwk, hrun]⟩))
  | finished rc out err el =>
      refine Or.inr (Or.inr (Or.inr ⟨hip, rc, out, err, el, rfl, rfl, ?_⟩))
      simp [executeRG, hhip, hck, hres, hhy, hwk, hrun, rgFinishedResult]

/-- Helper: the png2json pre-stage only ever returns an error
response when it cuts the job short. -/
theorem rrPngStage_error (env : RREnv) (r : RRResp)
    (h : rrPngStage env = some r) : ∃ m, r = RRResp.errorResp m := by
  unfold rrPngStage at h
  repeat' split at h
  all_goals try simp only [] at h
  all_goals try split at h
  all_goals try (exact Option.noConfusion h)
  all_goals injection h with h2
  all_goals exact ⟨_, h2.symm⟩

/-- Helper: every room_regen attempt lands in one of four branches. -/
theorem executeRR_cases (p : Payload) (env : RREnv) :
    (∃ m, executeRR p env = rrEarly (.errorResp m)) ∨
    (env.run1 = .timeout ∧ executeRR p env =
      { resp := .errorResp "TimeoutExpired", detailCalls := 0,
        detailPath := none, tempFilesCreated := true,
        jobFileRemoved := true, fallbackExistsAfter := true }) ∨
    (∃ m, env.run1 = .err m ∧ executeRR p env =
      { resp := .errorResp m, detailCalls := 0, detailPath := none,
        tempFilesCreated := true, jobFileRemoved := true,
        fallbackExistsAfter := true }) ∨
    (∃ hip rc out err el, p.hip = some hip ∧
      env.run1 = .finished rc out err el ∧ rrPngStage env = none ∧
      executeRR p env = rrFinishedResult p env hip rc out err el) := by
  cases hhip : p.hip with
  | none => exact Or.inl ⟨"KeyError: hip", by simp [executeRR, hhip]⟩
  | some hip =>
  cases hck : p.cook_node with
  | none =>
      exact Or.inl ⟨"KeyError: cook_node", by simp [executeRR, hhip, hck]⟩
  | some cook =>
  cases hres : resolve_hython_path p env.envHFS with
  | none =>
      exact Or.inl ⟨"no hython path and no HFS",
        by simp [executeRR, hhip, hck, hres]⟩
  | some hp =>
  cases hpng : rrPngStage env with
  | some r =>
      obtain ⟨m, rfl⟩ := rrPngStage_error env r hpng
      exact Or.inl ⟨m, by simp [executeRR, hhip, hck, hres, hpng]⟩
  | none =>
  cases hrun : env.run1 with
  | timeout =>
      exact Or.inr (Or.inl ⟨rfl,
        by simp [executeRR, hhip, hck, hres, hpng, hrun]⟩)
  | err m =>
      exact Or.inr (Or.inr (Or.inl ⟨m, rfl,
        by simp [executeRR, hhip, hck, hres, hpng, hrun]⟩))
  | finished rc out err el =>
      refine Or.inr (Or.inr (Or.inr
        ⟨hip, rc, out, err, el, rfl, rfl, rfl, ?_⟩))
      simp [executeRR, hhip, hck, hres, hpng, hrun, rrFinishedResult]

/-- C1 as stated is false: an attempt whose primary stage times out
writes no detail-log record at all.  The TimeoutExpired raised by the
subprocess call propagates to the catch-all handler at
task_processors.py line 285, which returns an error dict without ever
reaching the write_detail_log call at line 266.  The environment below
passes every pre-flight check, so the attempt is a genuine job
attempt. -/
theorem c1_counterexample :
    (let p : Payload :=
      { hip := some "C:/proj/a.hip", cook_node := some "/obj/geo/OUT",
        parm_node := none, uuid := some "u1", parms := [],
        hython := some "C:/hfs/bin/hython.exe", hfs := none,
        timeout_sec := 600, post_timeout_sec := 10, post_wait_sec := 5 }
    let env : RGEnv :=
      { envHFS := none, hythonIsFile := true, workerIsFile := true,
        run1 := .timeout, stdoutParse := none, fallbackIsFile := true,
        fallbackParse := none, postReaderIsFile := true,
        postRun := .timeout, postStdoutParse := none,
        hipDir := some "C:/proj", detailMkdirOk := true }
    env.run1 = RunOutcome.timeout ∧
      (executeRG p env).detailCalls = 0) := by
  decide

/-- C1 (amended): write_detail_log is called exactly once per attempt
whose primary stage runs to completion (after passing the pre-flight
checks, and for room_regen also the png2json pre-stage); attempts that
end in a primary-stage timeout, a spawn error, or a png2json pre-stage
failure return without any detail-log call. -/
theorem c1_amended :
    (∀ (p : Payload) (env : RGEnv) (rc : Int) (out err : String) (el : Nat),
      rgReachesResolve p env → env.run1 = RunOutcome.finished rc out err el →
      (executeRG p env).detailCalls = 1) ∧
    (∀ (p : Payload) (env : RGEnv), env.run1 = RunOutcome.timeout →
      (executeRG p env).detailCalls = 0) ∧
    (∀ (p : Payload) (env : RGEnv) (m : String), env.run1 = RunOutcome.err m →
      (executeRG p env).detailCalls = 0) ∧
    (∀ (p : Payload) (env : RREnv) (rc : Int) (out err : String) (el : Nat),
      rrReachesHython p env → env.run1 = RunOutcome.finished rc out err el →
      (executeRR p env).detailCalls = 1) ∧
    (∀ (p : Payload) (env : RREnv), env.run1 = RunOutcome.timeout →
      (executeRR p env).detailCalls = 0) ∧
    (∀ (p : Payload) (env : RREnv) (r : RRResp), rrPngStage env = some r →
      (executeRR p env).detailCalls = 0) := by
  refine ⟨?_, ?_, ?_, ?_, ?_, ?_⟩
  · intro p env rc out err el h hrun
    obtain ⟨hh, hc, hr, hhy, hwk⟩ := h
    rw [Option.isSome_iff_exists] at hh hc hr
    obtain ⟨hip, hhip⟩ := hh
    obtain ⟨cook, hck⟩ := hc
    obtain ⟨hp, hres⟩ := hr
    simp [executeRG, hhip, hck, hres, hhy, hwk, hrun]
  · intro p env hrun
    rcases executeRG_cases p env with ⟨m, he⟩ | ⟨-, he⟩ | ⟨m, -, he⟩ |
      ⟨hip, rc, out, err, el, -, hrun2, he⟩
    · simp [he, rgEarly]
    · simp [he]
    · simp [he]
    · rw [hrun] at hrun2; cases hrun2
  · intro p env m hrun
    rcases executeRG_cases p env with ⟨m2, he⟩ | ⟨hrun2, he⟩ | ⟨m2, -, he⟩ |
      ⟨hip, rc, out, err, el, -, hrun2, he⟩
    · simp [he, rgEarly]
    · simp [he]
    · simp [he]
    · rw [hrun] at hrun2; cases hrun2
  · intro p env rc out err el h hrun
    obtain ⟨hh, hc, hr, hpng⟩ := h
    rw [Option.isSome_iff_exists] at hh hc hr
    obtain ⟨hip, hhip⟩ := hh
    obtain ⟨cook, hck⟩ := hc
    obtain ⟨hp, hres⟩ := hr
    simp [executeRR, hhip, hck, hres, hpng, hrun]
  · intro p env hrun
    rcases executeRR_cases p env with ⟨m, he⟩ | ⟨-, he⟩ | ⟨m, -, he⟩ |
      ⟨hip, rc, out, err, el, -, hrun2, -, he⟩
    · simp [he, rrEarly]
    · simp [he]
    · simp [he]
    · rw [hrun] at hrun2; cases hrun2
  · intro p env r hpng
    rcases executeRR_cases p env with ⟨m, he⟩ | ⟨-, he⟩ | ⟨m, -, he⟩ |
      ⟨hip, rc, out, err, el, -, -, hpng2, he⟩
    · simp [he, rrEarly]
    · simp [he]
    · simp [he]
    · rw [hpng] at hpng2; cases hpng2

/-- Witness for C1 (amended): a completed primary stage makes exactly
one detail-log call. -/
theorem c1_witness :
    (executeRG
      { hip := some "C:/proj/a.hip", cook_node := some "/obj/geo/OUT",
        parm_node := none, uuid := some "u1", parms := [],
        hython := some "C:/hfs/bin/hython.exe", hfs := none,
        timeout_sec := 600, post_timeout_sec := 10, post_wait_sec := 5 }
      { envHFS := none, hythonIsFile := true, workerIsFile := true,
        run1 := .finished 0 "o" "" 5, stdoutParse := none,
        fallbackIsFile := true, fallbackParse := none,
        postReaderIsFile := true, postRun := .timeout,
        postStdoutParse := none, hipDir := some "C:/proj",
        detailMkdirOk := true }).detailCalls = 1 :=
  c1_amended.1 _ _ 0 "o" "" 5 ⟨rfl, rfl, rfl, rfl, rfl⟩ rfl

/-- C2: when the primary stage succeeds (exit code 0, resolved payload
reporting success) and a correlation id is available, a failing,
timed-out or raising post-process stage only degrades the post field:
the returned dict is still the successful worker payload (overall ok
truthy) with post.ok = false, and — the whole stage being wrapped in
its own try blocks at task_processors.py lines 211-245 — the model
returns this dict normally on every post outcome, so no exception
reaches the caller. -/
theorem c2_post_failure_degrades_only (p : Payload) (env : RGEnv)
    (out err : String) (el : Nat)
    (hgood : rgReachesResolve p env)
    (hrun : env.run1 = RunOutcome.finished 0 out err el)
    (hwj : wjOkB (rgResolved env out) = true)
    (huuid : extract_uuid p (normalize_parms p.parms) ≠ "")
    (hreader : env.postReaderIsFile = true)
    (hfail : rgPostFailed env) :
    ∃ o pi, (executeRG p env).resp = RGResp.success o el (some pi) ∧
      RGResp.okField (executeRG p env).resp = true ∧ pi.ok = false := by
  obtain ⟨hh, hc, hr, hhy, hwk⟩ := hgood
  rw [Option.isSome_iff_exists] at hh hc hr
  obtain ⟨hip, hhip⟩ := hh
  obtain ⟨cook, hck⟩ := hc
  obtain ⟨hp, hres⟩ := hr
  unfold rgResolved at hwj
  cases hwjv : (resolve_worker_json (pyStrip out) env.stdoutParse
      env.fallbackIsFile env.fallbackParse).worker_json with
  | none => rw [hwjv] at hwj; cases hwj
  | some o =>
    rw [hwjv] at hwj
    have hupost : ∃ pi, rgPostStage env = (some pi, true) ∧ pi.ok = false := by
      unfold rgPostFailed at hfail
      cases hpr : env.postRun with
      | timeout =>
        refine ⟨{ returncode := none, stdoutField := "",
                  stderrField := "json2jpg timeout", json := none,
                  elapsed_ms_post := 0, ok := false }, ?_, rfl⟩
        simp [rgPostStage, hreader, hpr]
      | err m =>
        refine ⟨{ returncode := none, stdoutField := "",
                  stderrField := m, json := none,
                  elapsed_ms_post := 0, ok := false }, ?_, rfl⟩
        simp [rgPostStage, hreader, hpr]
      | finished prc pout perr pel =>
        rw [hpr] at hfail
        refine ⟨{ returncode := some prc, stdoutField := "",
                  stderrField := "",
                  json := if (pyStrip pout != "") = true then
                    env.postStdoutParse else none,
                  elapsed_ms_post := pel,
                  ok := wjOkB (if (pyStrip pout != "") = true then
                    env.postStdoutParse else none) && (prc == 0) }, ?_, ?_⟩
        · simp [rgPostStage, hreader, hpr, mkSubprocResult]
        · by_cases hprc : prc = 0
          · subst hprc
            cases hpj : wjOkB
                (if (pyStrip pout != "") = true then env.postStdoutParse
                  else none) with
            | false => simp [hpj]
            | true => exact absurd ⟨rfl, hpj⟩ hfail
          · have hb : (prc == 0) = false := by simpa using hprc
            simp [hb]
    obtain ⟨pi, hpost, hpio⟩ := hupost
    have hoT : objTruthy o = true ∧ okTruthy o = true := by
      simpa [wjOkB, Bool.and_eq_true] using hwj
    refine ⟨o, pi, ?_, ?_, hpio⟩ <;>
      simp [executeRG, hhip, hck, hres, hhy, hwk, hrun, mkSubprocResult,
        hwjv, hwj, huuid, hpost, RGResp.okField, wjOkB, bne_iff_ne,
        hoT.1, hoT.2]

/-- Witness for C2 at a concrete job whose post stage times out. -/
theorem c2_witness :
    ∃ o pi,
      (executeRG
        { hip := some "C:/proj/a.hip", cook_node := some "/obj/geo/OUT",
          parm_node := none, uuid := some "u1", parms := [],
          hython := some "C:/hfs/bin/hython.exe", hfs := none,
          timeout_sec := 600, post_timeout_sec := 10, post_wait_sec := 5 }
        { envHFS := none, hythonIsFile := true, workerIsFile := true,
          run1 := .finished 0 "o" "" 5,
          stdoutParse := some [("ok", JVal.bool true)],
          fallbackIsFile := true, fallbackParse := none,
          postReaderIsFile := true, postRun := .timeout,
          postStdoutParse := none, hipDir := some "C:/proj",
          detailMkdirOk := true }).resp = RGResp.success o 5 (some pi) ∧
      RGResp.okField (executeRG
        { hip := some "C:/proj/a.hip", cook_node := some "/obj/geo/OUT",
          parm_node := none, uuid := some "u1", parms := [],
          hython := some "C:/hfs/bin/hython.exe", hfs := none,
          timeout_sec := 600, post_timeout_sec := 10, post_wait_sec := 5 }
        { envHFS := none, hythonIsFile := true, workerIsFile := true,
          run1 := .finished 0 "o" "" 5,
          stdoutParse := some [("ok", JVal.bool true)],
          fallbackIsFile := true, fallbackParse := none,
          postReaderIsFile := true, postRun := .timeout,
          postStdoutParse := none, hipDir := some "C:/proj",
          detailMkdirOk := true }).resp = true ∧ pi.ok = false :=
  c2_post_failure_degrades_only _ _ "o" "" 5 ⟨rfl, rfl, rfl, rfl, rfl⟩ rfl
    (by decide) (by decide) rfl trivial

/-- C5 as stated is false for room_regen: the success test at
task_processors.py line 433 checks only the resolved payload, never
the exit code, so a primary stage that exits 1 while printing an
ok-true payload yields an overall ok result. -/
theorem c5_counterexample :
    (let p : Payload :=
      { hip := some "C:/proj/a.hip", cook_node := some "/obj/geo/OUT",
        parm_node := none, uuid := some "u1", parms := [],
        hython := some "C:/hfs/bin/hython.exe", hfs := none,
        timeout_sec := 300, post_timeout_sec := 10, post_wait_sec := 5 }
    let env : RREnv :=
      { envHFS := none, png2jsonScriptIsFile := true,
        pngRun := .finished 0 "pj" "" 3,
        pngStdoutParse := some [("ok", JVal.bool true)],
        run1 := .finished 1 "wout" "" 5,
        stdoutParse := some [("ok", JVal.bool true)],
        fallbackIsFile := true, fallbackParse := none,
        hipDir := some "C:/proj", detailMkdirOk := true }
    env.run1 = RunOutcome.finished 1 "wout" "" 5 ∧
      RRResp.okField (executeRR p env).resp = true) := by
  decide

/-- C5 (amended): room_generation returns ok true only when the
primary subprocess exited 0 and the resolved payload reports success;
room_regen returns ok true only when the resolved payload reports
success — its exit code is never consulted on the success path. -/
theorem c5_amended :
    (∀ (p : Payload) (env : RGEnv),
      RGResp.okField (executeRG p env).resp = true →
      ∃ out err el, env.run1 = RunOutcome.finished 0 out err el ∧
        wjOkB (rgResolved env out) = true) ∧
    (∀ (p : Payload) (env : RREnv),
      RRResp.okField (executeRR p env).resp = true →
      ∃ rc out err el, env.run1 = RunOutcome.finished rc out err el ∧
        wjOkB (rrResolved env out) = true) := by
  constructor
  · intro p env hok
    rcases executeRG_cases p env with ⟨m, he⟩ | ⟨hrun, he⟩ | ⟨m, hrun, he⟩ |
      ⟨hip, rc, out, err, el, hhip, hrun, he⟩
    · rw [he] at hok; cases hok
    · rw [he] at hok; cases hok
    · rw [he] at hok; cases hok
    · refine ⟨out, err, el, ?_, ?_⟩ <;> rw [hrun] at *
      all_goals
        rw [he] at hok
        unfold rgFinishedResult mkSubprocResult at hok
        simp only at hok
      all_goals
        cases hcond : (rc == 0 && wjOkB (rgResolved env out)) with
        | false =>
            unfold rgResolved at hcond
            rw [hcond] at hok
            simp [RGResp.okField] at hok
        | true =>
            simp only [Bool.and_eq_true] at hcond
            obtain ⟨h1, h2⟩ := hcond
            have hrc : rc = 0 := by simpa using h1
            subst hrc
            first
              | rfl
              | exact h2
  · intro p env hok
    rcases executeRR_cases p env with ⟨m, he⟩ | ⟨hrun, he⟩ | ⟨m, hrun, he⟩ |
      ⟨hip, rc, out, err, el, hhip, hrun, -, he⟩
    · rw [he] at hok; cases hok
    · rw [he] at hok; cases hok
    · rw [he] at hok; cases hok
    · refine ⟨rc, out, err, el, hrun, ?_⟩
      rw [he] at hok
      unfold rrFinishedResult mkSubprocResult at hok
      simp only at hok
      cases hcond : wjOkB (rrResolved env out) with
      | false =>
          unfold rrResolved at hcond
          rw [hcond] at hok
          simp [RRResp.okField] at hok
      | true => rfl

/-- Witness for C5 (amended) on a successful room_generation run. -/
theorem c5_witness :
    ∃ out err el,
      RGEnv.run1
        { envHFS := none, hythonIsFile := true, workerIsFile := true,
          run1 := .finished 0 "o" "" 5,
          stdoutParse := some [("ok", JVal.bool true)],
          fallbackIsFile := true, fallbackParse := none,
          postReaderIsFile := false, postRun := .timeout,
          postStdoutParse := none, hipDir := some "C:/proj",
          detailMkdirOk := true } = RunOutcome.finished 0 out err el ∧
      wjOkB (rgResolved
        { envHFS := none, hythonIsFile := true, workerIsFile := true,
          run1 := .finished 0 "o" "" 5,
          stdoutParse := some [("ok", JVal.bool true)],
          fallbackIsFile := true, fallbackParse := none,
          postReaderIsFile := false, postRun := .timeout,
          postStdoutParse := none, hipDir := some "C:/proj",
          detailMkdirOk := true } out) = true :=
  c5_amended.1
    { hip := some "C:/proj/a.hip", cook_node := some "/obj/geo/OUT",
      parm_node := none, uuid := some "u1", parms := [],
      hython := some "C:/hfs/bin/hython.exe", hfs := none,
      timeout_sec := 600, post_timeout_sec := 10, post_wait_sec := 5 }
    _ (by decide)

/-- C6 as stated is false on its detail-log half: with no correlation
id the detail log is NOT written even when the hip directory resolves;
write_detail_log (log_system.py line 97) refuses a blank uuid because
the record's filename is <uuid>.json. -/
theorem c6_counterexample :
    (let p : Payload :=
      { hip := some "C:/proj/a.hip", cook_node := some "/obj/geo/OUT",
        parm_node := none, uuid := none, parms := [],
        hython := some "C:/hfs/bin/hython.exe", hfs := none,
        timeout_sec := 600, post_timeout_sec := 10, post_wait_sec := 5 }
    let env : RGEnv :=
      { envHFS := none, hythonIsFile := true, workerIsFile := true,
        run1 := .finished 0 "o" "" 5,
        stdoutParse := some [("ok", JVal.bool true)],
        fallbackIsFile := true, fallbackParse := none,
        postReaderIsFile := true, postRun := .finished 0 "x" "" 1,
        postStdoutParse := none, hipDir := some "C:/proj",
        detailMkdirOk := true }
    extract_uuid p (normalize_parms p.parms) = "" ∧
      env.hipDir = some "C:/proj" ∧ env.detailMkdirOk = true ∧
      (executeRG p env).detailCalls = 1 ∧
      (executeRG p env).detailPath = none) := by
  decide

/-- C6 (amended): with an empty correlation id the post-process stage
is never launched and user-stack logging is a guarded no-op, but the
detail log is also suppressed: write_detail_log returns None for a
blank uuid, so no record is written even when the source path
resolves. -/
theorem c6_amended (p : Payload) (env : RGEnv)
    (h : extract_uuid p (normalize_parms p.parms) = "") :
    (executeRG p env).postAttempted = false ∧
    (executeRG p env).detailPath = none ∧
    (∀ hip uid pn rt st upathOk loaded,
      append_or_replace_user_stack hip uid pn "" rt st upathOk loaded =
        UserStackOutcome.skipped) := by
  refine ⟨?_, ?_, ?_⟩
  · rcases executeRG_cases p env with ⟨m, he⟩ | ⟨-, he⟩ | ⟨m, -, he⟩ |
      ⟨hip, rc, out, err, el, -, -, he⟩
    · simp [he, rgEarly]
    · simp [he]
    · simp [he]
    · simp [he, rgFinishedResult, h]
  · rcases executeRG_cases p env with ⟨m, he⟩ | ⟨-, he⟩ | ⟨m, -, he⟩ |
      ⟨hip, rc, out, err, el, -, -, he⟩
    · simp [he, rgEarly]
    · simp [he]
    · simp [he]
    · simp [he, rgFinishedResult, h, write_detail_log]
  · intro hip uid pn rt st upathOk loaded
    simp [append_or_replace_user_stack]

/-- Witness for C6 (amended) at a payload with no uuid and no
room_file parameter. -/
theorem c6_witness :
    (executeRG
      { hip := some "C:/proj/b.hip", cook_node := some "/obj/geo/OUT",
        parm_node := none, uuid := none, parms := [],
        hython := some "C:/hfs/bin/hython.exe", hfs := none,
        timeout_sec := 600, post_timeout_sec := 10, post_wait_sec := 5 }
      { envHFS := none, hythonIsFile := true, workerIsFile := true,
        run1 := .finished 0 "o" "" 5,
        stdoutParse := some [("ok", JVal.bool true)],
        fallbackIsFile := true, fallbackParse := none,
        postReaderIsFile := true, postRun := .finished 0 "x" "" 1,
        postStdoutParse := none, hipDir := some "C:/proj",
        detailMkdirOk := true }).postAttempted = false ∧
    (executeRG
      { hip := some "C:/proj/b.hip", cook_node := some "/obj/geo/OUT",
        parm_node := none, uuid := none, parms := [],
        hython := some "C:/hfs/bin/hython.exe", hfs := none,
        timeout_sec := 600, post_timeout_sec := 10, post_wait_sec := 5 }
      { envHFS := none, hythonIsFile := true, workerIsFile := true,
        run1 := .finished 0 "o" "" 5,
        stdoutParse := some [("ok", JVal.bool true)],
        fallbackIsFile := true, fallbackParse := none,
        postReaderIsFile := true, postRun := .finished 0 "x" "" 1,
        postStdoutParse := none, hipDir := some "C:/proj",
        detailMkdirOk := true }).detailPath = none :=
  ⟨(c6_amended _ _ (by decide)).1, (c6_amended _ _ (by decide)).2.1⟩

/-- C8 as stated is false: when stdout parses, the fallback
result-output file is never deleted — the removal at
task_processors.py lines 190-194 sits inside the branch that is only
entered when the stdout channel failed, and no other code path removes
the file. -/
theorem c8_counterexample :
    (let p : Payload :=
      { hip := some "C:/proj/a.hip", cook_node := some "/obj/geo/OUT",
        parm_node := none, uuid := some "u1", parms := [],
        hython := some "C:/hfs/bin/hython.exe", hfs := none,
        timeout_sec := 600, post_timeout_sec := 10, post_wait_sec := 5 }
    let env : RGEnv :=
      { envHFS := none, hythonIsFile := true, workerIsFile := true,
        run1 := .finished 0 "o" "" 5,
        stdoutParse := some [("ok", JVal.bool true)],
        fallbackIsFile := true, fallbackParse := none,
        postReaderIsFile := false, postRun := .timeout,
        postStdoutParse := none, hipDir := some "C:/proj",
        detailMkdirOk := true }
    (executeRG p env).tempFilesCreated = true ∧
      (executeRG p env).fallbackExistsAfter = true) := by
  decide

/-- C8 (amended): once the temporary files are created, the
job-descriptor file is removed on every exit path (finally block),
but the fallback result file is removed only when it is consumed —
stdout empty or unparseable and the file present; when stdout parses
the file is left untouched, and on a primary-stage timeout it is left
behind. -/
theorem c8_amended (p : Payload) (env : RGEnv) :
    ((executeRG p env).tempFilesCreated = true →
      (executeRG p env).jobFileRemoved = true) ∧
    (∀ (rc : Int) (out err : String) (el : Nat),
      env.run1 = RunOutcome.finished rc out err el →
      (pyStrip out = "" ∨ env.stdoutParse = none) →
      env.fallbackIsFile = true →
      (executeRG p env).tempFilesCreated = true →
      (executeRG p env).fallbackExistsAfter = false) ∧
    (∀ (rc : Int) (out err : String) (el : Nat) (o : JObj),
      env.run1 = RunOutcome.finished rc out err el →
      pyStrip out ≠ "" → env.stdoutParse = some o →
      (executeRG p env).tempFilesCreated = true →
      (executeRG p env).fallbackExistsAfter = env.fallbackIsFile) ∧
    (env.run1 = RunOutcome.timeout →
      (executeRG p env).tempFilesCreated = true →
      (executeRG p env).fallbackExistsAfter = true) := by
  refine ⟨?_, ?_, ?_, ?_⟩
  · rcases executeRG_cases p env with ⟨m, he⟩ | ⟨-, he⟩ | ⟨m, -, he⟩ |
      ⟨hip, rc, out, err, el, -, -, he⟩
    · intro hc; rw [he] at hc; cases hc
    · intro hc; simp [he]
    · intro hc; simp [he]
    · intro hc; simp [he, rgFinishedResult]
  · intro rc out err el hrun hbad hfex hc
    rcases executeRG_cases p env with ⟨m, he⟩ | ⟨hrun2, he⟩ | ⟨m, hrun2, he⟩ |
      ⟨hip, rc2, out2, err2, el2, -, hrun2, he⟩
    · rw [he] at hc; cases hc
    · rw [hrun] at hrun2; cases hrun2
    · rw [hrun] at hrun2; cases hrun2
    · rw [hrun] at hrun2
      injection hrun2 with h1 h2 h3 h4
      subst h1; subst h2; subst h3; subst h4
      rw [he]
      unfold rgFinishedResult mkSubprocResult
      simp only
      rcases hbad with hb | hb <;>
        simp [resolve_worker_json, hb, hfex]
  · intro rc out err el o hrun hne hsp hc
    rcases executeRG_cases p env with ⟨m, he⟩ | ⟨hrun2, he⟩ | ⟨m, hrun2, he⟩ |
      ⟨hip, rc2, out2, err2, el2, -, hrun2, he⟩
    · rw [he] at hc; cases hc
    · rw [hrun] at hrun2; cases hrun2
    · rw [hrun] at hrun2; cases hrun2
    · rw [hrun] at hrun2
      injection hrun2 with h1 h2 h3 h4
      subst h1; subst h2; subst h3; subst h4
      rw [he]
      unfold rgFinishedResult mkSubprocResult
      simp only
      simp [resolve_worker_json, hne, hsp]
  · intro hrun hc
    rcases executeRG_cases p env with ⟨m, he⟩ | ⟨-, he⟩ | ⟨m, hrun2, he⟩ |
      ⟨hip, rc, out, err, el, -, hrun2, he⟩
    · rw [he] at hc; cases hc
    · simp [he]
    · rw [hrun] at hrun2; cases hrun2
    · rw [hrun] at hrun2; cases hrun2

/-- Witness for C8 (amended): a consumed fallback file no longer
exists afterwards. -/
theorem c8_witness :
    (executeRG
      { hip := some "C:/proj/a.hip", cook_node := some "/obj/geo/OUT",
        parm_node := none, uuid := some "u1", parms := [],
        hython := some "C:/hfs/bin/hython.exe", hfs := none,
        timeout_sec := 600, post_timeout_sec := 10, post_wait_sec := 5 }
      { envHFS := none, hythonIsFile := true, workerIsFile := true,
        run1 := .finished 0 "" "" 5, stdoutParse := none,
        fallbackIsFile := true,
        fallbackParse := some [("ok", JVal.bool true)],
        postReaderIsFile := false, postRun := .timeout,
        postStdoutParse := none, hipDir := some "C:/proj",
        detailMkdirOk := true }).fallbackExistsAfter = false :=
  (c8_amended
    { hip := some "C:/proj/a.hip", cook_node := some "/obj/geo/OUT",
      parm_node := none, uuid := some "u1", parms := [],
      hython := some "C:/hfs/bin/hython.exe", hfs := none,
      timeout_sec := 600, post_timeout_sec := 10, post_wait_sec := 5 }
    { envHFS := none, hythonIsFile := true, workerIsFile := true,
      run1 := .finished 0 "" "" 5, stdoutParse := none,
      fallbackIsFile := true,
      fallbackParse := some [("ok", JVal.bool true)],
      postReaderIsFile := false, postRun := .timeout,
      postStdoutParse := none, hipDir := some "C:/proj",
      detailMkdirOk := true }).2.1 0 "" "" 5 rfl (Or.inl rfl) rfl (by decide)

/-- C10: when the top-level uuid field is absent or empty, the
correlation id falls back to the lower-cased parameters: a non-blank
room_file yields the basename of that path with its extension
removed, and an absent or blank room_file yields the empty string —
and in the latter case the job still proceeds through the full
pipeline (no uuid validation rejects it): a completed primary stage
still makes its one detail-log call.  This models both
BaseTaskProcessor.extract_uuid and the identical
dispatcher_server._extract_uuid. -/
theorem c10_uuid_fallback (p : Payload)
    (h : p.uuid = none ∨ p.uuid = some "") :
    (∀ rf, dget (normalize_parms p.parms) "room_file" = some rf →
      pyStrip rf ≠ "" →
      extract_uuid p (normalize_parms p.parms) =
        (splitext (basename (pyStrip rf))).1) ∧
    (pyStrip (pyStrOr (dget (normalize_parms p.parms) "room_file")) = "" →
      extract_uuid p (normalize_parms p.parms) = "") ∧
    (∀ env : RGEnv, rgReachesResolve p env →
      ∀ (rc : Int) (out err : String) (el : Nat),
        env.run1 = RunOutcome.finished rc out err el →
        (executeRG p env).detailCalls = 1) := by
  have huv : pyStrip (pyStrOr p.uuid) = "" := by
    rcases h with h | h <;> rw [h] <;> rfl
  refine ⟨?_, ?_, ?_⟩
  · intro rf hrf hne
    rw [extract_uuid]
    simp only [huv, hrf]
    simp [pyStrOr, bne_iff_ne, hne]
  · intro hempty
    rw [extract_uuid]
    simp only [huv]
    simp [hempty]
  · intro env hgood rc out err el hrun
    obtain ⟨hh, hc, hr, hhy, hwk⟩ := hgood
    rw [Option.isSome_iff_exists] at hh hc hr
    obtain ⟨hip, hhip⟩ := hh
    obtain ⟨cook, hck⟩ := hc
    obtain ⟨hp, hres⟩ := hr
    simp [executeRG, hhip, hck, hres, hhy, hwk, hrun]

/-- Witness for C10 on a room_file-derived correlation id. -/
theorem c10_witness :
    extract_uuid
      { hip := some "C:/proj/a.hip", cook_node := some "/obj/geo/OUT",
        parm_node := none, uuid := none,
        parms := [("ROOM_FILE", " C:/rooms/abc-123.json ")],
        hython := none, hfs := none, timeout_sec := 600,
        post_timeout_sec := 10, post_wait_sec := 5 }
      (normalize_parms [("ROOM_FILE", " C:/rooms/abc-123.json ")]) =
      (splitext (basename (pyStrip " C:/rooms/abc-123.json "))).1 :=
  (c10_uuid_fallback
    { hip := some "C:/proj/a.hip", cook_node := some "/obj/geo/OUT",
      parm_node := none, uuid := none,
      parms := [("ROOM_FILE", " C:/rooms/abc-123.json ")],
      hython := none, hfs := none, timeout_sec := 600,
      post_timeout_sec := 10, post_wait_sec := 5 }
    (Or.inl rfl)).1 " C:/rooms/abc-123.json " (by decide) (by decide)

/-- Helper: peeling the top row off a decode. -/
theorem image_to_pixels_succ (img : Raster) (w h : Nat) :
    image_to_pixels img w (h+1) =
      (List.range w).map (fun x => normPix (img x h)) ++
        image_to_pixels img w h := by
  have hfun : ((fun j => (List.range w).map
        (fun x => normPix (img x (h + 1 - 1 - j)))) ∘ Nat.succ) =
      (fun j => (List.range w).map (fun x => normPix (img x (h - 1 - j)))) := by
    funext j
    have harg : h + 1 - 1 - (j + 1) = h - 1 - j := by omega
    simp only [Function.comp_apply, Nat.succ_eq_add_one]
    rw [harg]
  unfold image_to_pixels
  rw [List.range_succ_eq_map, List.map_cons, List.flatten_cons,
    List.map_map, hfun]
  norm_num

/-- Helper: a decode has exactly height*width entries. -/
theorem image_to_pixels_length (img : Raster) (w h : Nat) :
    (image_to_pixels img w h).length = h * w := by
  induction h with
  | zero => simp [image_to_pixels]
  | succ h ih =>
    rw [image_to_pixels_succ, List.length_append, ih, List.length_map,
      List.length_range, Nat.succ_mul, Nat.add_comm]

/-- Helper: entry k of a decode reads the raster at
(k mod w, h - 1 - k / w). -/
theorem image_to_pixels_get (img : Raster) (w h : Nat) :
    ∀ k, k < h * w →
      (image_to_pixels img w h).get? k =
        some (normPix (img (k % w) (h - 1 - k / w))) := by
  induction h with
  | zero => intro k hk; simp at hk
  | succ h ih =>
    intro k hk
    have hw0 : 0 < w := by
      rcases Nat.eq_zero_or_pos w with h0 | h0
      · subst h0; simp at hk
      · exact h0
    rw [image_to_pixels_succ]
    by_cases hkw : k < w
    · rw [List.get?_append (by simpa using hkw)]
      rw [List.get?_map, List.get?_range hkw]
      have h1 : k % w = k := Nat.mod_eq_of_lt hkw
      have h2 : k / w = 0 := Nat.div_eq_of_lt hkw
      simp [h1, h2]
    · push_neg at hkw
      obtain ⟨m, rfl⟩ := Nat.exists_eq_add_of_le hkw
      rw [List.get?_append_right (by simp [hkw])]
      have hlen : ((List.range w).map
          (fun x => normPix (img x h))).length = w := by simp
      rw [hlen]
      have hm : m < h * w := by
        have := hk
        rw [Nat.succ_mul] at this
        omega
      have hmod : (w + m) % w = m % w := Nat.add_mod_left w m
      have hdiv : (w + m) / w = m / w + 1 := by
        rw [Nat.add_comm w m, Nat.add_div_right m hw0]
      have hsimp : w + m - w = m := by omega
      rw [hsimp, ih m hm, hmod, hdiv]
      have : h + 1 - 1 - (m / w + 1) = h - 1 - m / w := by omega
      rw [this]

/-- Helper: evaluating a fold of write steps at a fixed coordinate:
the last in-range write to that coordinate wins, else the base
image shows through. -/
theorem foldl_putStep_eval (w h : Nat) :
    ∀ (l : List (Nat × Pix)) (img0 : Raster) (a b : Nat),
      (l.foldl (putStep w h) img0) a b =
        (match (l.filterMap (fun ip =>
            if ip.1 < w * h ∧ ip.1 % w = a ∧ h - 1 - ip.1 / w = b
            then some ip.2 else none)).getLast? with
          | some px => quantPix px
          | none => img0 a b) := by
  intro l
  induction l with
  | nil => intro img0 a b; simp
  | cons ip l ih =>
    intro img0 a b
    rw [List.foldl_cons, ih]
    by_cases hp : ip.1 < w * h ∧ ip.1 % w = a ∧ h - 1 - ip.1 / w = b
    · have hstep : (putStep w h img0 ip) a b = quantPix ip.2 := by
        unfold putStep putpixel
        rw [if_neg (by omega : ¬ w * h ≤ ip.1)]
        simp [hp.2.1, hp.2.2]
      rw [List.filterMap_cons_some (b := ip.2) (by simp [hp])]
      cases hrest : (l.filterMap (fun ip =>
          if ip.1 < w * h ∧ ip.1 % w = a ∧ h - 1 - ip.1 / w = b
          then some ip.2 else none)) with
      | nil => simp [hrest, hstep]
      | cons x xs =>
          rw [List.getLast?_cons_cons]
          cases hy : (x :: xs).getLast? with
          | none => simp at hy
          | some y => rfl
    · have hstep : (putStep w h img0 ip) a b = img0 a b := by
        unfold putStep putpixel
        by_cases hin : w * h ≤ ip.1
        · rw [if_pos hin]
        · rw [if_neg hin]
          have : ¬ (a = ip.1 % w ∧ b = h - 1 - ip.1 / w) := by
            intro ⟨ha, hb⟩
            exact hp ⟨by omega, ha.symm, hb.symm⟩
          rw [if_neg this]
      rw [List.filterMap_cons_none (by simp [hp]), hstep]

/-- Helper: filtering an index-enumerated list for one index yields
exactly the element at that index. -/
theorem filterMap_enumFrom_single (k : Nat) :
    ∀ (l : List Pix) (n : Nat),
      (List.enumFrom n l).filterMap (fun ip =>
        if ip.1 = k then some ip.2 else none) =
      if n ≤ k then (l.get? (k - n)).toList else [] := by
  intro l
  induction l with
  | nil => intro n; cases Nat.decLe n k <;> simp [List.enumFrom]
  | cons px l ih =>
    intro n
    rw [show List.enumFrom n (px :: l) = (n, px) :: List.enumFrom (n+1) l
      from rfl]
    by_cases hnk : n = k
    · subst hnk
      rw [List.filterMap_cons_some (b := px) (by simp), ih (n+1)]
      rw [if_neg (by omega), if_pos (Nat.le_refl n)]
      simp
    · rw [List.filterMap_cons_none (by simp [hnk]), ih (n+1)]
      rcases Nat.lt_or_ge k n with hlt | hge
      · rw [if_neg (by omega), if_neg (by omega)]
      · have hge2 : n + 1 ≤ k := by omega
        rw [if_pos hge2, if_pos (by omega)]
        have : k - n = (k - (n+1)) + 1 := by omega
        rw [this]
        rfl

/-- Helper: indices carried by an enumeration are bounded by the
start plus the length. -/
theorem enumFrom_fst_bounds :
    ∀ (l : List Pix) (n : Nat) (ip : Nat × Pix),
      ip ∈ List.enumFrom n l → n ≤ ip.1 ∧ ip.1 < n + l.length := by
  intro l
  induction l with
  | nil => intro n ip h; simp [List.enumFrom] at h
  | cons px l ih =>
    intro n ip h
    rw [show List.enumFrom n (px :: l) = (n, px) :: List.enumFrom (n+1) l
      from rfl] at h
    rcases List.mem_cons.mp h with h1 | h2
    · subst h1; simp
    · have := ih (n+1) ip h2
      simp only [List.length_cons]
      omega

/-- Helper: filterMap only depends on the function's values on the
list. -/
theorem filterMap_congr_mem {α β : Type} (f g : α → Option β) :
    ∀ (l : List α), (∀ a ∈ l, f a = g a) →
      l.filterMap f = l.filterMap g := by
  intro l
  induction l with
  | nil => intro h; rfl
  | cons a l ih =>
    intro h
    rw [List.filterMap_cons, List.filterMap_cons, h a (List.mem_cons_self a l),
      ih (fun x hx => h x (List.mem_cons_of_mem a hx))]

/-- Helper: the encoded raster holds the quantized source pixel at
the coordinate that index k maps to. -/
theorem pixels_to_image_eval (pixels : List Pix) (w h k : Nat) (px : Pix)
    (hlen : pixels.length = w * h) (hget : pixels.get? k = some px) :
    pixels_to_image pixels w h (k % w) (h - 1 - k / w) = quantPix px := by
  have hk : k < w * h := by
    rcases List.get?_eq_some.mp hget with ⟨hw, -⟩
    rw [hlen] at hw
    exact hw
  have hw0 : 0 < w := by
    rcases Nat.eq_zero_or_pos w with h0 | h0
    · subst h0; simp at hk
    · exact h0
  unfold pixels_to_image
  rw [foldl_putStep_eval]
  have hinj : ∀ ip : Nat × Pix, ip ∈ pixels.enum →
      (if ip.1 < w * h ∧ ip.1 % w = k % w ∧
          h - 1 - ip.1 / w = h - 1 - k / w
        then some ip.2 else none) =
      (if ip.1 = k then some ip.2 else none) := by
    intro ip hip
    by_cases hipk : ip.1 = k
    · rw [if_pos hipk, if_pos]
      exact ⟨hipk ▸ hk, by rw [hipk], by rw [hipk]⟩
    · rw [if_neg hipk, if_neg]
      intro ⟨h1, h2, h3⟩
      have hdivi : ip.1 / w < h := (Nat.div_lt_iff_lt_mul hw0).mpr
        (by rw [Nat.mul_comm]; exact h1)
      have hdivk : k / w < h := (Nat.div_lt_iff_lt_mul hw0).mpr
        (by rw [Nat.mul_comm]; exact hk)
      have hdiveq : ip.1 / w = k / w := by omega
      have e1 := Nat.div_add_mod ip.1 w
      have e2 := Nat.div_add_mod k w
      exact hipk (by rw [← e1, ← e2, hdiveq, h2])
  rw [filterMap_congr_mem _ _ pixels.enum hinj]
  rw [show pixels.enum = List.enumFrom 0 pixels from rfl,
    filterMap_enumFrom_single k pixels 0, if_pos (Nat.zero_le k)]
  rw [Nat.sub_zero, hget]
  rfl

/-- Helper: one quantize-then-normalize channel round trip stays
within half a quantization step. -/
theorem normChan_quantChan_close (r : ℚ) (h0 : 0 ≤ r) (h1 : r ≤ 1) :
    |normChan (quantChan r) - r| ≤ 1/255 := by
  unfold normChan quantChan clamp01
  rw [if_neg (not_lt.mpr h0), if_neg (not_lt.mpr h1)]
  have h2 : |(round (r * 255) : ℚ) - r * 255| ≤ 1/2 := by
    have h3 := abs_sub_round (r * 255)
    rwa [abs_sub_comm] at h3
  have heq : ((round (r * 255) : ℚ)/255 - r) =
      ((round (r * 255) : ℚ) - r * 255)/255 := by ring
  rw [heq, abs_div, abs_of_pos (by norm_num : (0:ℚ) < 255)]
  calc |(round (r * 255) : ℚ) - r * 255| / 255
      ≤ (1/2) / 255 := by
        apply div_le_div_of_nonneg_right h2 ?_ |>.trans_eq rfl
        norm_num
    _ ≤ 1/255 := by norm_num

/-- C9: encoding W×H normalized RGB triples to a raster with
bottom-left-origin, x-first indexing (vertical flip to the top-left
raster origin) and decoding in the same order returns the full
sequence with each channel within 1/255 of the original. -/
theorem c9_roundtrip (w h : Nat) (pixels : List Pix)
    (hlen : pixels.length = w * h)
    (hb : ∀ px ∈ pixels, 0 ≤ px.1 ∧ px.1 ≤ 1 ∧ 0 ≤ px.2.1 ∧
      px.2.1 ≤ 1 ∧ 0 ≤ px.2.2 ∧ px.2.2 ≤ 1) :
    (image_to_pixels (pixels_to_image pixels w h) w h).length = w * h ∧
    ∀ k px qx, pixels.get? k = some px →
      (image_to_pixels (pixels_to_image pixels w h) w h).get? k = some qx →
      |qx.1 - px.1| ≤ 1/255 ∧ |qx.2.1 - px.2.1| ≤ 1/255 ∧
        |qx.2.2 - px.2.2| ≤ 1/255 := by
  constructor
  · rw [image_to_pixels_length, Nat.mul_comm]
  · intro k px qx hget hdec
    have hk : k < h * w := by
      rcases List.get?_eq_some.mp hget with ⟨hw2, -⟩
      rw [hlen] at hw2
      rw [Nat.mul_comm]
      exact hw2
    rw [image_to_pixels_get _ _ _ k hk, pixels_to_image_eval pixels w h k px
      hlen hget] at hdec
    have hqx : qx = normPix (quantPix px) := by
      injection hdec with h2
      exact h2.symm
    subst hqx
    obtain ⟨b1, b2, b3, b4, b5, b6⟩ := hb px (List.get?_mem hget)
    exact ⟨normChan_quantChan_close _ b1 b2,
      normChan_quantChan_close _ b3 b4,
      normChan_quantChan_close _ b5 b6⟩

/-- Witness for C9 on a concrete 2-by-1 image. -/
theorem c9_witness :
    (image_to_pixels (pixels_to_image
        [((0:ℚ), (0:ℚ), (1:ℚ)), ((1:ℚ), (1:ℚ), (0:ℚ))] 2 1) 2 1).length
      = 2 * 1 ∧
    ∀ k px qx,
      [((0:ℚ), (0:ℚ), (1:ℚ)), ((1:ℚ), (1:ℚ), (0:ℚ))].get? k = some px →
      (image_to_pixels (pixels_to_image
        [((0:ℚ), (0:ℚ), (1:ℚ)), ((1:ℚ), (1:ℚ), (0:ℚ))] 2 1) 2 1).get? k
        = some qx →
      |qx.1 - px.1| ≤ 1/255 ∧ |qx.2.1 - px.2.1| ≤ 1/255 ∧
        |qx.2.2 - px.2.2| ≤ 1/255 :=
  c9_roundtrip 2 1 [((0:ℚ), (0:ℚ), (1:ℚ)), ((1:ℚ), (1:ℚ), (0:ℚ))] rfl
    (by decide)

end P2H
